import Mathlib

/-!
# Verification of the sequencer / mixing engine of `drummer.c`

A shallow embedding of the non-hardware core of `drummer.c` (a step-sequencer
drum machine for the Raspberry Pi Pico): the transport counters, the voice
bank, the per-frame synthesis function `generate_sample`, the block-buffer
fill routine `drum_fill_buffer`, and the priming phase of `main`.

Machine integers are modelled as `Nat`/`Int`; the C `int` arithmetic involved
never overflows on the values the program reaches, and the 32-bit output word
is modelled as a `Nat` built from two 16-bit halves taken modulo `2^16`.

The drum waveform tables (`samples/drum_*.h`) are include files that are not
part of the source tree; following the spec, which treats them as immutable
input assets, the sample bank is a parameter `bank : Nat → List Int` of every
definition that reads it.  The debug sine tone computed at the end of
`generate_sample` uses C `double` arithmetic; its value sequence is modelled
as a parameter `tone : Nat → Int` of the frame index actually used, so every
theorem below about the emitted word holds for any value of that tone.
-/

/-- `N_VOICES` from `drummer.c`. -/
def N_VOICES : Nat := 6

/-- `BPM` from `drummer.c`. -/
def BPM : Nat := 155

/-- `SAMPLE_RATE` is `(int)(125000000/PIO_I2S_CLKDIV/32/2)` with
`PIO_I2S_CLKDIV = 44.25F`.  Under IEEE-754 single precision,
`125000000/44.25` rounds to `2824858.75` (the exact quotient is
`2824858.7570…`, and the spacing of floats in that binade is `0.25`);
dividing by `32` and by `2` is exact, giving `44138.41796875`, and the
cast to `int` truncates to `44138`.  Floating point lies outside the
embedding, so the resulting constant is used directly. -/
def SAMPLE_RATE : Nat := 44138

/-- `BEATS_PER_BAR` from `drummer.c`. -/
def BEATS_PER_BAR : Nat := 4

/-- `BAR_LEN` from `drummer.c`: steps per bar. -/
def BAR_LEN : Nat := 72

/-- `LOOP_BARS` from `drummer.c`: length of the arrangement in bars. -/
def LOOP_BARS : Nat := 10

/-- The emphasis scale constant: the literal `12` in
`voices[i].emph = (pattern...-'1') * 12` (line 216 of `drummer.c`). -/
def EMPHASIS_UNIT : Int := 12

/-- One playback voice: `struct voice { int pan, volume, sample, pos, emph }`.
`pos` is a non-negative array cursor, modelled as `Nat`. -/
structure Voice where
  pan : Int
  volume : Int
  sample : Int
  pos : Nat
  emph : Int
deriving DecidableEq, Repr

/-- The six-voice bank (`voices[N_VOICES]`); `N_VOICES = 6` is fixed in the
source, so the bank is a record with one field per voice. -/
structure Voices where
  v0 : Voice
  v1 : Voice
  v2 : Voice
  v3 : Voice
  v4 : Voice
  v5 : Voice
deriving DecidableEq, Repr

/-- The transport counters `bar`, `tickOfBar`, `sampleOfTick`. -/
structure Transport where
  bar : Nat
  tickOfBar : Nat
  sampleOfTick : Nat
deriving DecidableEq, Repr

/-- The whole mutable state read or written by `generate_sample`:
transport, voices, the debug counter `index1`, and the timing parameters
`samplesPerBeat` / `samplesPerTick` (static ints assigned once in `main`). -/
structure SynthState where
  transport : Transport
  voices : Voices
  index1 : Nat
  spb : Nat
  spt : Nat
deriving DecidableEq, Repr

/-- Row 0 of `pattern0`. -/
def p0r0 : String := "1        1                     1    1        1                          "

/-- Row 1 of `pattern0`. -/
def p0r1 : String := "                                                                        "

/-- Row 2 of `pattern0`. -/
def p0r2 : String := "                  1                                   1                 "

/-- Row 3 of `pattern0`. -/
def p0r3 : String := "                                                                        "

/-- Row 4 of `pattern0`. -/
def p0r4 : String := "1        1        1        1        1        1        1        1        "

/-- Row 5 of `pattern0`. -/
def p0r5 : String := "                                                                        "

/-- Row 0 of `pattern1`. -/
def p1r0 : String := "9                                   1                                   "

/-- Row 1 of `pattern1`. -/
def p1r1 : String := "                                                                        "

/-- Row 2 of `pattern1`. -/
def p1r2 : String := "4        1        1        1        3        1        1        1        "

/-- Row 3 of `pattern1`. -/
def p1r3 : String := "                                                                        "

/-- Row 4 of `pattern1`. -/
def p1r4 : String := "                                                                        "

/-- Row 5 of `pattern1`. -/
def p1r5 : String := "                                                                        "

/-- Row 0 of `pattern2`. -/
def p2r0 : String := "9                                   1                                   "

/-- Row 1 of `pattern2`. -/
def p2r1 : String := "         1                 1                 1                 1        "

/-- Row 2 of `pattern2`. -/
def p2r2 : String := "1                 1                 1                 1                 "

/-- Row 3 of `pattern2`. -/
def p2r3 : String := "5        1        1        1        1        1                 1        "

/-- Row 4 of `pattern2`. -/
def p2r4 : String := "5                          1                 1                          "

/-- Row 5 of `pattern2`. -/
def p2r5 : String := "         1                          4                          1        "

/-- `pattern0` as a per-voice grid of characters. -/
def pattern0 : List (List Char) :=
  [p0r0.toList, p0r1.toList, p0r2.toList, p0r3.toList, p0r4.toList, p0r5.toList]

/-- `pattern1` as a per-voice grid of characters. -/
def pattern1 : List (List Char) :=
  [p1r0.toList, p1r1.toList, p1r2.toList, p1r3.toList, p1r4.toList, p1r5.toList]

/-- `pattern2` as a per-voice grid of characters. -/
def pattern2 : List (List Char) :=
  [p2r0.toList, p2r1.toList, p2r2.toList, p2r3.toList, p2r4.toList, p2r5.toList]

/-- The `patterns[LOOP_BARS]` array; only slots 0–2 are initialised in the
source (the rest are null pointers, never dereferenced because `bars` only
holds the values 0–2), modelled as the empty grid. -/
def patternsArr (n : Nat) : List (List Char) :=
  if n = 0 then pattern0 else if n = 1 then pattern1 else if n = 2 then pattern2 else []

/-- `static const int bars[LOOP_BARS] = { 0,0,0,2,2,2,2,2,1,0 }`. -/
def barsArr : List Nat := [0, 0, 0, 2, 2, 2, 2, 2, 1, 0]

/-- The pattern cell `patterns[bars[bar]]->pattern[i][tickOfBar]` consulted by
the trigger phase for voice `i`. -/
def cellAt (t : Transport) (i : Nat) : Char :=
  ((patternsArr (barsArr.getD t.bar 0)).getD i []).getD t.tickOfBar ' '

/-- The trigger update of one voice at the start of a tick (lines 214–217):
if the pattern cell is not a space, set `pos = 1` and
`emph = (cell - '1') * 12`; otherwise leave the voice unchanged. -/
def triggerVoice (c : Char) (v : Voice) : Voice :=
  if c ≠ ' ' then
    { v with pos := 1, emph := ((c.toNat : Int) - ('1'.toNat : Int)) * EMPHASIS_UNIT }
  else v

/-- The trigger phase (the loop at lines 213–218), applied to all six voices. -/
def triggerPhase (t : Transport) (vs : Voices) : Voices :=
  { v0 := triggerVoice (cellAt t 0) vs.v0
    v1 := triggerVoice (cellAt t 1) vs.v1
    v2 := triggerVoice (cellAt t 2) vs.v2
    v3 := triggerVoice (cellAt t 3) vs.v3
    v4 := triggerVoice (cellAt t 4) vs.v4
    v5 := triggerVoice (cellAt t 5) vs.v5 }

/-- The read/advance step of one voice (lines 221–232): if `sample >= 0`,
read the amplitude `sounds[sample].samples[pos]`; if `pos != 0`, advance the
cursor and reset it to 0 once it reaches the sample length.  Returns the
amplitude read (`samples[i]`, 0 when `sample < 0`) and the updated voice. -/
def readVoice (bank : Nat → List Int) (v : Voice) : Int × Voice :=
  if 0 ≤ v.sample then
    let amp := (bank v.sample.toNat).getD v.pos 0
    if v.pos ≠ 0 then
      if v.pos + 1 ≥ (bank v.sample.toNat).length then (amp, { v with pos := 0 })
      else (amp, { v with pos := v.pos + 1 })
    else (amp, v)
  else (0, v)

/-- The six per-voice amplitudes `samples[i]` of one frame. -/
structure Amps where
  a0 : Int
  a1 : Int
  a2 : Int
  a3 : Int
  a4 : Int
  a5 : Int
deriving DecidableEq, Repr

/-- The read/advance phase (lines 221–232) over all six voices. -/
def readPhase (bank : Nat → List Int) (vs : Voices) : Amps × Voices :=
  let p0 := readVoice bank vs.v0
  let p1 := readVoice bank vs.v1
  let p2 := readVoice bank vs.v2
  let p3 := readVoice bank vs.v3
  let p4 := readVoice bank vs.v4
  let p5 := readVoice bank vs.v5
  (⟨p0.1, p1.1, p2.1, p3.1, p4.1, p5.1⟩, ⟨p0.2, p1.2, p2.2, p3.2, p4.2, p5.2⟩)

/-- One voice's contribution to a channel accumulator:
`(emph + volume) * amplitude * weight` (lines 237–239). -/
def contrib (v : Voice) (amp w : Int) : Int :=
  (v.emph + v.volume) * amp * w

/-- The mixing loop (lines 234–240): `output[0]` accumulates with weight
`pan`, `output[1]` with weight `32 - pan`. -/
def mixOut (vs : Voices) (a : Amps) : Int × Int :=
  (contrib vs.v0 a.a0 vs.v0.pan + contrib vs.v1 a.a1 vs.v1.pan +
     contrib vs.v2 a.a2 vs.v2.pan + contrib vs.v3 a.a3 vs.v3.pan +
     contrib vs.v4 a.a4 vs.v4.pan + contrib vs.v5 a.a5 vs.v5.pan,
   contrib vs.v0 a.a0 (32 - vs.v0.pan) + contrib vs.v1 a.a1 (32 - vs.v1.pan) +
     contrib vs.v2 a.a2 (32 - vs.v2.pan) + contrib vs.v3 a.a3 (32 - vs.v3.pan) +
     contrib vs.v4 a.a4 (32 - vs.v4.pan) + contrib vs.v5 a.a5 (32 - vs.v5.pan))

/-- The transport advance (lines 242–252): increment `sampleOfTick`, wrap at
`samplesPerTick` into `tickOfBar`, wrap at `BAR_LEN` into `bar`, wrap `bar`
at `LOOP_BARS` back to 0.  All wraps test with equality, as the source does. -/
def advanceTransport (spt : Nat) (t : Transport) : Transport :=
  if t.sampleOfTick + 1 = spt then
    if t.tickOfBar + 1 = BAR_LEN then
      ⟨if t.bar + 1 = LOOP_BARS then 0 else t.bar + 1, 0, 0⟩
    else ⟨t.bar, t.tickOfBar + 1, 0⟩
  else ⟨t.bar, t.tickOfBar, t.sampleOfTick + 1⟩

/-- The reset applied to `index1` before it is used (lines 257–258):
`if (index1 >= 400) index1 = 0`. -/
def effIndex (i : Nat) : Nat := if 400 ≤ i then 0 else i

/-- Packing of two 16-bit halves into the 32-bit output word, low half first
(the union `smpl_data` on a little-endian target: `d2[0]` is the low half). -/
def pack16 (lo hi : Int) : Nat :=
  (lo.emod 65536).toNat + 65536 * (hi.emod 65536).toNat

/-- `generate_sample` (lines 207–278): trigger phase when `sampleOfTick == 0`,
read/advance phase, mixing (computed into `output[0..1]` but *not* used for
the return value), transport advance, then the debug-tone return path: the
word actually returned packs `tone u` into both halves, where
`u = effIndex index1` is the counter value used by the sine computation and
`index1` is left at `u + 1`. -/
def generateSample (tone : Nat → Int) (bank : Nat → List Int)
    (st : SynthState) : SynthState × Nat :=
  let vs1 := if st.transport.sampleOfTick = 0 then triggerPhase st.transport st.voices
             else st.voices
  let ra := readPhase bank vs1
  let _mix := mixOut ra.2 ra.1
  let t1 := advanceTransport st.spt st.transport
  let u := effIndex st.index1
  (⟨t1, ra.2, u + 1, st.spb, st.spt⟩, pack16 (tone u) (tone u))

/-- The synthesis-state part of one `generate_sample` call. -/
def genStep (tone : Nat → Int) (bank : Nat → List Int) (st : SynthState) : SynthState :=
  (generateSample tone bank st).1

/-- The synthesis state after `n` calls to `generate_sample`. -/
def genIter (tone : Nat → Int) (bank : Nat → List Int) (n : Nat) (st : SynthState) :
    SynthState :=
  (genStep tone bank)^[n] st

/-- The word emitted by the `n`-th call (counting from 0) to `generate_sample`
starting from state `st`. -/
def outAt (tone : Nat → Int) (bank : Nat → List Int) (st : SynthState) (n : Nat) : Nat :=
  (generateSample tone bank (genIter tone bank n st)).2

/-- The initial voice table `voices[N_VOICES]` (lines 121–128). -/
def initVoices : Voices :=
  { v0 := ⟨16, 192, 0, 0, 0⟩
    v1 := ⟨8, 0, 1, 0, 0⟩
    v2 := ⟨16, 40, 2, 0, 0⟩
    v3 := ⟨18, 80, 3, 0, 0⟩
    v4 := ⟨28, 30, 4, 0, 0⟩
    v5 := ⟨4, 30, 0, 0, 0⟩ }

/-- The synthesis state at startup: all counters zero and the timing
parameters computed by `main` (lines 429–430):
`samplesPerBeat = SAMPLE_RATE*60/BPM`,
`samplesPerTick = samplesPerBeat * BEATS_PER_BAR / BAR_LEN`
(truncating integer division). -/
def initSynth : SynthState :=
  { transport := ⟨0, 0, 0⟩
    voices := initVoices
    index1 := 0
    spb := SAMPLE_RATE * 60 / BPM
    spt := SAMPLE_RATE * 60 / BPM * BEATS_PER_BAR / BAR_LEN }

/-- `N_BUFFERS` from `drummer.c`. -/
def N_BUFFERS : Nat := 4

/-- `BUFFER_SIZE` from `drummer.c`: frames per block. -/
def BUFFER_SIZE : Nat := 49

/-- The engine state seen by the fill routine: the synthesis state, the
block-buffer ring `buffer[N_BUFFERS][BUFFER_SIZE]` (a total map from block
and slot index to the stored word), and the ring cursors `buffer_to_fill`
(producer) and `buffer_playing` (consumer; a C `int` that `main` briefly
sets to `-1`, hence `Int`). -/
structure EngState where
  synth : SynthState
  buffers : Nat → Nat → Nat
  toFill : Int
  playing : Int

/-- Store `v` at block `b`, slot `i` of the buffer ring. -/
def writeBuf (bs : Nat → Nat → Nat) (b i v : Nat) : Nat → Nat → Nat :=
  fun b2 i2 => if b2 = b ∧ i2 = i then v else bs b2 i2

/-- The fill loop of `drum_fill_buffer` (lines 285–287), writing `n` frames
into block `buffer_to_fill` starting at slot `i`:
`buffer[buffer_to_fill][i] = generate_sample()`. -/
def fillFrom (tone : Nat → Int) (bank : Nat → List Int) :
    Nat → Nat → EngState → EngState
  | _, 0, st => st
  | i, n + 1, st =>
    fillFrom tone bank (i + 1) n
      { st with
        synth := (generateSample tone bank st.synth).1
        buffers := writeBuf st.buffers st.toFill.toNat i (generateSample tone bank st.synth).2 }

/-- `drum_fill_buffer` (lines 281–289): refuse (no-op) when
`buffer_playing == buffer_to_fill`; otherwise synthesize `BUFFER_SIZE`
frames into block `buffer_to_fill` and advance it modulo `N_BUFFERS`. -/
def drum_fill_buffer (tone : Nat → Int) (bank : Nat → List Int) (st : EngState) : EngState :=
  if st.playing = st.toFill then st
  else
    let st1 := fillFrom tone bank 0 BUFFER_SIZE st
    { st1 with toFill := (st1.toFill + 1) % (N_BUFFERS : Int) }

/-- The engine state when `main` reaches the priming loop: zeroed
(static-storage) buffers, both cursors 0, timing parameters computed. -/
def initEng : EngState :=
  { synth := initSynth, buffers := fun _ _ => 0, toFill := 0, playing := 0 }

/-- The priming phase of `main` (lines 431–435): set `buffer_playing = -1`
so the fill guard never refuses, call `drum_fill_buffer` `N_BUFFERS` times,
then set `buffer_playing = N_BUFFERS - 1`. -/
def prime (tone : Nat → Int) (bank : Nat → List Int) : EngState :=
  let st1 := (drum_fill_buffer tone bank)^[N_BUFFERS] { initEng with playing := -1 }
  { st1 with playing := (N_BUFFERS : Int) - 1 }

/-- The transport invariant: every counter is below its wrap boundary. -/
def transportInv (spt : Nat) (t : Transport) : Prop :=
  t.sampleOfTick < spt ∧ t.tickOfBar < BAR_LEN ∧ t.bar < LOOP_BARS

/-- The per-call update of `index1` (lines 257–262): reset at 400, then
post-increment. -/
def idxStep (i : Nat) : Nat := effIndex i + 1

/-- The per-frame effect of one `generate_sample` call on a single voice:
the trigger phase runs only at the first frame of a tick (`c = some cell`),
then the read/advance phase always runs. -/
def voiceUpd (bank : Nat → List Int) (c : Option Char) (v : Voice) : Voice :=
  (readVoice bank (match c with
    | some ch => triggerVoice ch v
    | none => v)).2

/-- A single voice's state after `n` frames, where `cells k` is the pattern
cell seen at frame `k` (`none` outside the first frame of a tick). -/
def voiceRun (bank : Nat → List Int) (cells : Nat → Option Char) (v : Voice) :
    Nat → Voice
  | 0 => v
  | n + 1 => voiceUpd bank (cells n) (voiceRun bank cells v n)

/-- The synthesis state after `n` calls keeps the timing parameters. -/
theorem genIter_spb_spt (tone : Nat → Int) (bank : Nat → List Int) (n : Nat)
    (st : SynthState) :
    (genIter tone bank n st).spb = st.spb ∧ (genIter tone bank n st).spt = st.spt := by
  induction n with
  | zero => exact ⟨rfl, rfl⟩
  | succ n ih =>
    have h : genIter tone bank (n + 1) st = genStep tone bank (genIter tone bank n st) :=
      Function.iterate_succ_apply' (genStep tone bank) n st
    rw [h]
    exact ⟨ih.1, ih.2⟩

/-- The fill loop advances the synthesis state by exactly `n` frames. -/
theorem fillFrom_synth (tone : Nat → Int) (bank : Nat → List Int) :
    ∀ (n i : Nat) (st : EngState),
      (fillFrom tone bank i n st).synth = genIter tone bank n st.synth := by
  intro n
  induction n with
  | zero => intro i st; rfl
  | succ n ih =>
    intro i st
    show (fillFrom tone bank (i + 1) n _).synth = _
    rw [ih]
    exact (Function.iterate_succ_apply (genStep tone bank) n st.synth).symm

/-- The fill loop never touches the ring cursors. -/
theorem fillFrom_cursors (tone : Nat → Int) (bank : Nat → List Int) :
    ∀ (n i : Nat) (st : EngState),
      (fillFrom tone bank i n st).toFill = st.toFill ∧
      (fillFrom tone bank i n st).playing = st.playing := by
  intro n
  induction n with
  | zero => intro i st; exact ⟨rfl, rfl⟩
  | succ n ih =>
    intro i st
    exact ih (i + 1) _

/-- Shifting the start state of the output stream by one frame. -/
theorem outAt_genStep (tone : Nat → Int) (bank : Nat → List Int) (st : SynthState)
    (k : Nat) :
    outAt tone bank (genStep tone bank st) k = outAt tone bank st (k + 1) := by
  unfold outAt genIter
  rw [Function.iterate_succ_apply]

/-- Exact description of the buffer ring after the fill loop: block
`buffer_to_fill` holds the successive outputs of `generate_sample` in slots
`i, …, i+n-1`, and every other cell is untouched. -/
theorem fillFrom_buffers (tone : Nat → Int) (bank : Nat → List Int) :
    ∀ (n i : Nat) (st : EngState) (b j : Nat),
      (fillFrom tone bank i n st).buffers b j =
        if b = st.toFill.toNat ∧ i ≤ j ∧ j < i + n
        then outAt tone bank st.synth (j - i)
        else st.buffers b j := by
  intro n
  induction n with
  | zero =>
    intro i st b j
    rw [if_neg]
    · rfl
    · rintro ⟨-, h1, h2⟩
      omega
  | succ n ih =>
    intro i st b j
    show (fillFrom tone bank (i + 1) n _).buffers b j = _
    rw [ih]
    by_cases hb : b = st.toFill.toNat
    · by_cases hji : j = i
      · subst hji
        rw [if_neg (by omega), if_pos ⟨hb, le_refl j, by omega⟩]
        show writeBuf st.buffers st.toFill.toNat j _ b j = _
        rw [writeBuf, if_pos ⟨hb, rfl⟩]
        simp [outAt, genIter]
      · by_cases hj : i ≤ j ∧ j < i + (n + 1)
        · have h1 : i + 1 ≤ j := by omega
          rw [if_pos ⟨hb, h1, by omega⟩, if_pos ⟨hb, hj.1, hj.2⟩]
          show outAt tone bank (genStep tone bank st.synth) (j - (i + 1)) = _
          rw [outAt_genStep]
          congr 1
          omega
        · rw [if_neg (by rintro ⟨-, h1, h2⟩; exact hj ⟨by omega, by omega⟩),
            if_neg (by rintro ⟨-, h1, h2⟩; exact hj ⟨h1, h2⟩)]
          show writeBuf st.buffers st.toFill.toNat i _ b j = _
          rw [writeBuf, if_neg (by rintro ⟨-, h⟩; exact hji h)]
    · rw [if_neg (by rintro ⟨h, -⟩; exact hb h), if_neg (by rintro ⟨h, -⟩; exact hb h)]
      show writeBuf st.buffers st.toFill.toNat i _ b j = _
      rw [writeBuf, if_neg (by rintro ⟨h, -⟩; exact hb h)]

/-- C1: the word `generate_sample` returns is the debug sine tone packed into
both 16-bit halves — a function of the counter `index1` alone — and not the
packing of the mixing accumulators of §4.1 step 3 (the intended packing at
line 256 of the source is commented out).  In particular the emitted word is
independent of the sample bank, and on the very first call from the initial
state (where the C `double` computation yields exactly
`(int16_t)(15000.0*sin(0.0) + 15000.0) = 15000`) it is
`15000 + 65536*15000 = 983055000`, whatever the voice amplitudes are. -/
theorem emitted_word_is_debug_tone (tone : Nat → Int) (bank bank2 : Nat → List Int)
    (st : SynthState) (h : tone 0 = 15000) :
    (generateSample tone bank st).2 =
      pack16 (tone (effIndex st.index1)) (tone (effIndex st.index1)) ∧
    (generateSample tone bank st).2 = (generateSample tone bank2 st).2 ∧
    (generateSample tone bank initSynth).2 = 983055000 := by
  refine ⟨rfl, rfl, ?_⟩
  show pack16 (tone (effIndex 0)) (tone (effIndex 0)) = 983055000
  have he : effIndex 0 = 0 := by decide
  rw [he, h]
  decide

theorem emitted_word_is_debug_tone_witness :
    (generateSample (fun _ => 15000) (fun _ => []) initSynth).2 = 983055000 :=
  (emitted_word_is_debug_tone (fun _ => 15000) (fun _ => []) (fun _ => [])
    initSynth rfl).2.2

/-- C2: when `buffer_playing == buffer_to_fill`, `drum_fill_buffer` is a
complete no-op — the whole engine state (buffers, cursors, transport and
voice state) is returned unchanged; and in every call the block indexed by
`buffer_playing` is never written (for well-formed non-negative cursors). -/
theorem drum_fill_buffer_caught_up_noop (tone : Nat → Int) (bank : Nat → List Int)
    (st : EngState) (h : st.playing = st.toFill) :
    drum_fill_buffer tone bank st = st ∧
    (∀ st2 : EngState, 0 ≤ st2.playing → 0 ≤ st2.toFill →
      st2.playing ≠ st2.toFill → ∀ i,
      (drum_fill_buffer tone bank st2).buffers st2.playing.toNat i =
        st2.buffers st2.playing.toNat i) := by
  constructor
  · rw [drum_fill_buffer, if_pos h]
  · intro st2 hp hf hne i
    rw [drum_fill_buffer, if_neg hne]
    show (fillFrom tone bank 0 BUFFER_SIZE st2).buffers st2.playing.toNat i = _
    rw [fillFrom_buffers]
    rw [if_neg]
    rintro ⟨hb, -⟩
    exact hne (by omega)

theorem drum_fill_buffer_caught_up_noop_witness :
    drum_fill_buffer (fun _ => 0) (fun _ => []) initEng = initEng :=
  (drum_fill_buffer_caught_up_noop (fun _ => 0) (fun _ => []) initEng rfl).1

/-- C6: for a single active voice (all other amplitudes zero) with amplitude
`A`, the two channel accumulators of the mixing loop sum to
`A * (emph + volume) * 32` for every pan weight in `0..32`: the channel
split conserves the voice's total energy. -/
theorem pan_split_energy_conserved (vs : Voices) (A : Int)
    (_h0 : 0 ≤ vs.v0.pan) (_h32 : vs.v0.pan ≤ 32) :
    (mixOut vs ⟨A, 0, 0, 0, 0, 0⟩).1 + (mixOut vs ⟨A, 0, 0, 0, 0, 0⟩).2 =
      A * (vs.v0.emph + vs.v0.volume) * 32 := by
  simp only [mixOut, contrib]
  ring

theorem pan_split_energy_conserved_witness :
    (mixOut initVoices ⟨3, 0, 0, 0, 0, 0⟩).1 + (mixOut initVoices ⟨3, 0, 0, 0, 0, 0⟩).2 =
      3 * (initVoices.v0.emph + initVoices.v0.volume) * 32 :=
  pan_split_energy_conserved initVoices 3 (by decide) (by decide)

/-- C8: the timing parameters are exactly the ones `main` computes once at
initialization — `samplesPerBeat = SAMPLE_RATE*60/BPM` (= 17085) and
`samplesPerTick = samplesPerBeat*BEATS_PER_BAR/BAR_LEN` (= 949), with
truncating integer division (both divisions leave a nonzero remainder,
which is dropped) — and neither `generate_sample` nor `drum_fill_buffer`
ever changes them. -/
theorem timing_parameters_fixed (tone : Nat → Int) (bank : Nat → List Int)
    (st : SynthState) (est : EngState) :
    initSynth.spb = SAMPLE_RATE * 60 / BPM ∧
    initSynth.spt = initSynth.spb * BEATS_PER_BAR / BAR_LEN ∧
    initSynth.spb = 17085 ∧
    initSynth.spt = 949 ∧
    SAMPLE_RATE * 60 % BPM = 105 ∧
    initSynth.spb * BEATS_PER_BAR % BAR_LEN = 12 ∧
    (genStep tone bank st).spb = st.spb ∧
    (genStep tone bank st).spt = st.spt ∧
    (drum_fill_buffer tone bank est).synth.spb = est.synth.spb ∧
    (drum_fill_buffer tone bank est).synth.spt = est.synth.spt := by
  refine ⟨rfl, rfl, by decide, by decide, by decide, by decide, rfl, rfl, ?_, ?_⟩
  · rw [drum_fill_buffer]
    by_cases h : est.playing = est.toFill
    · rw [if_pos h]
    · rw [if_neg h]
      show (fillFrom tone bank 0 BUFFER_SIZE est).synth.spb = _
      rw [fillFrom_synth]
      exact (genIter_spb_spt tone bank BUFFER_SIZE est.synth).1
  · rw [drum_fill_buffer]
    by_cases h : est.playing = est.toFill
    · rw [if_pos h]
    · rw [if_neg h]
      show (fillFrom tone bank 0 BUFFER_SIZE est).synth.spt = _
      rw [fillFrom_synth]
      exact (genIter_spb_spt tone bank BUFFER_SIZE est.synth).2

/-- C9: a voice whose cursor is 0 (idle) with a non-negative sample
reference still reads the assigned waveform's amplitude at index 0 each
frame (there is no dedicated silence sample in the bank — `sounds[0]` is
the kick drum), its state is left completely unchanged (the cursor stays
0, also through a full `generate_sample` call outside the trigger frame),
and the amplitude it contributes is the waveform's first entry, which need
not be zero. -/
theorem idle_voice_reads_index_zero (tone : Nat → Int) (bank : Nat → List Int)
    (v : Voice) (st : SynthState)
    (hpos : v.pos = 0) (hs : 0 ≤ v.sample)
    (hpos0 : st.voices.v0.pos = 0) (hs0 : 0 ≤ st.voices.v0.sample)
    (htick : st.transport.sampleOfTick ≠ 0) :
    (readVoice bank v).1 = (bank v.sample.toNat).getD 0 0 ∧
    (readVoice bank v).2 = v ∧
    (generateSample tone bank st).1.voices.v0 = st.voices.v0 ∧
    ((readVoice (fun _ => [7, 0]) ⟨16, 192, 0, 0, 0⟩).1 = 7 ∧ (7 : Int) ≠ 0) := by
  refine ⟨?_, ?_, ?_, by decide, by decide⟩
  · simp [readVoice, hs, hpos]
  · simp [readVoice, hs, hpos]
  · have hv : (generateSample tone bank st).1.voices =
        (readPhase bank (if st.transport.sampleOfTick = 0
          then triggerPhase st.transport st.voices else st.voices)).2 := rfl
    rw [hv, if_neg htick]
    show (readVoice bank st.voices.v0).2 = st.voices.v0
    simp [readVoice, hs0, hpos0]

theorem idle_voice_reads_index_zero_witness :
    (readVoice (fun _ => [3]) ⟨8, 0, 1, 0, 0⟩).1 =
      ((fun _ => ([3] : List Int)) (Int.toNat 1)).getD 0 0 :=
  (idle_voice_reads_index_zero (fun _ => 0) (fun _ => [3]) ⟨8, 0, 1, 0, 0⟩
    { initSynth with transport := ⟨0, 0, 5⟩ } rfl (by decide) rfl (by decide)
    (by decide)).1

/-- C10: at the first frame of a step a pattern cell triggers its voice
exactly when it is not the space character: any non-space `c` sets the
cursor to 1 and emphasis to `(c - '1') * 12`, which is negative whenever
`c` is ordered below `'1'`; a space leaves the voice untouched. -/
theorem trigger_on_any_nonspace (c : Char) (v : Voice) (h : c ≠ ' ') :
    triggerVoice c v =
      { v with pos := 1, emph := ((c.toNat : Int) - ('1'.toNat : Int)) * EMPHASIS_UNIT } ∧
    triggerVoice ' ' v = v ∧
    (c.toNat < '1'.toNat → (triggerVoice c v).emph < 0) := by
  refine ⟨?_, ?_, ?_⟩
  · rw [triggerVoice, if_pos h]
  · simp [triggerVoice]
  · intro hlt
    rw [triggerVoice, if_pos h]
    show ((c.toNat : Int) - ('1'.toNat : Int)) * EMPHASIS_UNIT < 0
    have h1 : (c.toNat : Int) - ('1'.toNat : Int) < 0 := by omega
    exact mul_neg_of_neg_of_pos h1 (by decide)

theorem trigger_on_any_nonspace_witness :
    (triggerVoice '0' initVoices.v0).emph < 0 :=
  (trigger_on_any_nonspace '0' initVoices.v0 (by decide)).2.2 (by decide)

/-- The transport invariant is preserved by every transport advance. -/
theorem advance_preserves_inv (spt : Nat) (h : 0 < spt) (t : Transport)
    (ht : transportInv spt t) : transportInv spt (advanceTransport spt t) := by
  obtain ⟨h1, h2, h3⟩ := ht
  unfold transportInv advanceTransport BAR_LEN LOOP_BARS at *
  split_ifs with e1 e2 e3 <;> refine ⟨?_, ?_, ?_⟩ <;> simp at * <;> omega

/-- Within one tick, the advance just counts frames. -/
theorem advance_iter_frames (spt : Nat) :
    ∀ (j : Nat), j < spt → ∀ (b tk : Nat),
      (advanceTransport spt)^[j] ⟨b, tk, 0⟩ = ⟨b, tk, j⟩ := by
  intro j
  induction j with
  | zero => intro _ b tk; rfl
  | succ j ih =>
    intro hj b tk
    rw [Function.iterate_succ_apply', ih (by omega) b tk]
    simp only [advanceTransport]
    rw [if_neg (by omega)]

/-- Exactly `spt` calls complete one tick, wrapping the step and bar
counters exactly at their boundaries. -/
theorem advance_iter_tickstep (k : Nat) (b tk : Nat) :
    (advanceTransport (k + 1))^[k + 1] ⟨b, tk, 0⟩ =
      if tk + 1 = BAR_LEN then
        ⟨if b + 1 = LOOP_BARS then 0 else b + 1, 0, 0⟩
      else ⟨b, tk + 1, 0⟩ := by
  rw [Function.iterate_succ_apply', advance_iter_frames (k + 1) k (by omega) b tk]
  simp only [advanceTransport]
  rw [if_true]

/-- `m` whole ticks inside one bar. -/
theorem advance_iter_manyticks (k b : Nat) :
    ∀ (m tk : Nat), tk + m < BAR_LEN →
      (advanceTransport (k + 1))^[(k + 1) * m] ⟨b, tk, 0⟩ = ⟨b, tk + m, 0⟩ := by
  intro m
  induction m with
  | zero => intro tk _; rfl
  | succ m ih =>
    intro tk h
    rw [show (k + 1) * (m + 1) = (k + 1) * m + (k + 1) by ring,
      Function.iterate_add_apply, advance_iter_tickstep k b tk,
      if_neg (by unfold BAR_LEN at *; omega), ih (tk + 1) (by omega)]
    congr 1
    omega

/-- One whole bar: after `spt * BAR_LEN` calls from `(b, 0, 0)` the bar index
has advanced by exactly one, modulo `LOOP_BARS`. -/
theorem advance_iter_bar (k b : Nat) (hb : b < LOOP_BARS) :
    (advanceTransport (k + 1))^[(k + 1) * BAR_LEN] ⟨b, 0, 0⟩ =
      ⟨(b + 1) % LOOP_BARS, 0, 0⟩ := by
  rw [show (k + 1) * BAR_LEN = (k + 1) + (k + 1) * 71 by unfold BAR_LEN; ring,
    Function.iterate_add_apply,
    advance_iter_manyticks k b 71 0 (by unfold BAR_LEN; omega)]
  rw [show (0 + 71 : Nat) = 71 by rfl, advance_iter_tickstep k b 71,
    if_pos (by decide)]
  congr 1
  unfold LOOP_BARS at *
  by_cases hb1 : b + 1 = 10
  · rw [if_pos hb1, hb1, Nat.mod_self]
  · rw [if_neg hb1, Nat.mod_eq_of_lt (by omega)]

/-- A full pass over the arrangement, bar by bar. -/
theorem advance_iter_bars (k : Nat) :
    ∀ (m b : Nat), b < LOOP_BARS →
      (advanceTransport (k + 1))^[(k + 1) * BAR_LEN * m] ⟨b, 0, 0⟩ =
        ⟨(b + m) % LOOP_BARS, 0, 0⟩ := by
  intro m
  induction m with
  | zero =>
    intro b hb
    show (⟨b, 0, 0⟩ : Transport) = _
    rw [Nat.add_zero, Nat.mod_eq_of_lt hb]
  | succ m ih =>
    intro b hb
    rw [show (k + 1) * BAR_LEN * (m + 1) = (k + 1) * BAR_LEN * m + (k + 1) * BAR_LEN
        by ring,
      Function.iterate_add_apply, advance_iter_bar k b hb,
      ih ((b + 1) % LOOP_BARS) (Nat.mod_lt _ (by decide))]
    congr 1
    unfold LOOP_BARS
    omega

/-- The transport component of `n` calls to `generate_sample` is `n`
iterations of the transport advance at the state's `samplesPerTick`. -/
theorem genIter_transport (tone : Nat → Int) (bank : Nat → List Int) :
    ∀ (n : Nat) (st : SynthState),
      (genIter tone bank n st).transport =
        (advanceTransport st.spt)^[n] st.transport := by
  intro n
  induction n with
  | zero => intro st; rfl
  | succ n ih =>
    intro st
    show (genIter tone bank n (genStep tone bank st)).transport = _
    rw [ih]
    have h1 : (genStep tone bank st).spt = st.spt := rfl
    have h2 : (genStep tone bank st).transport = advanceTransport st.spt st.transport := rfl
    rw [h1, h2, ← Function.iterate_succ_apply]

/-- The `index1` component of `n` calls to `generate_sample` is `n`
iterations of the reset-then-increment step. -/
theorem genIter_index1 (tone : Nat → Int) (bank : Nat → List Int) :
    ∀ (n : Nat) (st : SynthState),
      (genIter tone bank n st).index1 = idxStep^[n] st.index1 := by
  intro n
  induction n with
  | zero => intro st; rfl
  | succ n ih =>
    intro st
    show (genIter tone bank n (genStep tone bank st)).index1 = _
    rw [ih]
    have h2 : (genStep tone bank st).index1 = idxStep st.index1 := rfl
    rw [h2, ← Function.iterate_succ_apply]

/-- Closed form for the debug counter: from 0 it cycles with period 400. -/
theorem idxStep_iter_closed :
    ∀ (n : Nat), idxStep^[n] 0 = if n = 0 then 0 else (n - 1) % 400 + 1 := by
  intro n
  induction n with
  | zero => rfl
  | succ n ih =>
    rw [Function.iterate_succ_apply', ih]
    by_cases h : n = 0
    · subst h; decide
    · rw [if_neg h, if_neg (by omega)]
      unfold idxStep effIndex
      by_cases h4 : 400 ≤ (n - 1) % 400 + 1
      · rw [if_pos h4]
        omega
      · rw [if_neg h4]
        omega

/-- C3: each `generate_sample` call advances the transport by exactly one
`sampleOfTick` (wrapping exactly at `samplesPerTick`, `BAR_LEN` and
`LOOP_BARS`); starting from `(b, 0, 0)` with `b < LOOP_BARS`, after exactly
`samplesPerTick * BAR_LEN` calls the bar index has advanced by exactly one
modulo `LOOP_BARS` with the step and frame counters at 0; and the invariant
`sampleOfTick < samplesPerTick ∧ tickOfBar < BAR_LEN ∧ bar < LOOP_BARS` is
preserved by every call. -/
theorem transport_advances_and_wraps (tone : Nat → Int) (bank : Nat → List Int)
    (st : SynthState) (b : Nat) (hspt : 0 < st.spt)
    (ht : st.transport = ⟨b, 0, 0⟩) (hb : b < LOOP_BARS) :
    (genIter tone bank (st.spt * BAR_LEN) st).transport = ⟨(b + 1) % LOOP_BARS, 0, 0⟩ ∧
    (∀ st2 : SynthState,
      (genStep tone bank st2).transport = advanceTransport st2.spt st2.transport) ∧
    (∀ st2 : SynthState, st2.transport.sampleOfTick + 1 ≠ st2.spt →
      (genStep tone bank st2).transport =
        ⟨st2.transport.bar, st2.transport.tickOfBar, st2.transport.sampleOfTick + 1⟩) ∧
    (∀ n : Nat, transportInv st.spt ((genIter tone bank n st).transport)) := by
  obtain ⟨k, hk⟩ : ∃ k, st.spt = k + 1 := ⟨st.spt - 1, by omega⟩
  refine ⟨?_, fun st2 => rfl, ?_, ?_⟩
  · rw [genIter_transport, ht, hk, advance_iter_bar k b hb]
  · intro st2 hne
    show advanceTransport st2.spt st2.transport = _
    simp only [advanceTransport]
    rw [if_neg hne]
  · intro n
    rw [genIter_transport]
    have h0 : transportInv st.spt st.transport := by
      rw [ht]
      exact ⟨hspt, (by decide : (0 : Nat) < BAR_LEN), hb⟩
    induction n with
    | zero => exact h0
    | succ n ih =>
      rw [Function.iterate_succ_apply']
      exact advance_preserves_inv st.spt hspt _ ih

theorem transport_advances_and_wraps_witness :
    (genIter (fun _ => 0) (fun _ => [])
        (({ initSynth with spt := 1 } : SynthState).spt * BAR_LEN)
        { initSynth with spt := 1 }).transport = ⟨(0 + 1) % LOOP_BARS, 0, 0⟩ :=
  (transport_advances_and_wraps (fun _ => 0) (fun _ => [])
    { initSynth with spt := 1 } 0 (by decide) rfl (by decide)).1

/-- C5 counterexample: the synthesis path is not free of hidden mutable
state across arrangement loops — after exactly one full arrangement of
frames (`LOOP_BARS * BAR_LEN * samplesPerTick = 683280` calls) from the
initial state, the counter `index1` read by the output path holds 80, not
its time-zero value 0 (its period is 400, which does not divide 683280). -/
theorem loop_hidden_state_differs :
    (genIter (fun _ => 0) (fun _ => []) (LOOP_BARS * BAR_LEN * initSynth.spt)
        initSynth).index1 = 80 ∧
    initSynth.index1 = 0 ∧ (80 : Nat) ≠ 0 := by
  refine ⟨?_, rfl, by decide⟩
  rw [genIter_index1]
  show idxStep^[683280] 0 = 80
  rw [idxStep_iter_closed 683280, if_neg (by omega)]

/-- C5 amended: after exactly one full arrangement of frames the Transport
is bit-for-bit identical to its time-zero state, but the emitted output is
not guaranteed identical across loop iterations: the returned word is a
function of the debug counter `index1` alone, and `index1` does not recur —
it holds 80 after one arrangement against 0 at time zero — so positions
whose tone values at the shifted counter differ emit different words. -/
theorem loop_transport_recurs_but_output_counter_drifts (tone : Nat → Int)
    (bank : Nat → List Int) :
    (genIter tone bank (LOOP_BARS * BAR_LEN * initSynth.spt) initSynth).transport =
      initSynth.transport ∧
    (genIter tone bank (LOOP_BARS * BAR_LEN * initSynth.spt) initSynth).index1 = 80 ∧
    (∀ st : SynthState, (generateSample tone bank st).2 =
      pack16 (tone (effIndex st.index1)) (tone (effIndex st.index1))) := by
  refine ⟨?_, ?_, fun st => rfl⟩
  · rw [genIter_transport]
    show (advanceTransport initSynth.spt)^[LOOP_BARS * BAR_LEN * initSynth.spt]
      (⟨0, 0, 0⟩ : Transport) = ⟨0, 0, 0⟩
    have hspt : initSynth.spt = 948 + 1 := by decide
    rw [show LOOP_BARS * BAR_LEN * initSynth.spt = (948 + 1) * BAR_LEN * 10 by decide,
      hspt, advance_iter_bars 948 10 0 (by decide)]
    rfl
  · rw [genIter_index1]
    show idxStep^[683280] 0 = 80
    rw [idxStep_iter_closed 683280, if_neg (by omega)]

/-- A space cell never retriggers a voice. -/
theorem triggerVoice_space (v : Voice) : triggerVoice ' ' v = v := by
  simp [triggerVoice]

/-- The voice state left by the read/advance step, for a playable sample:
idle stays idle, otherwise the cursor advances and resets to 0 exactly on
reaching the sample length. -/
theorem readVoice_snd (bank : Nat → List Int) (w : Voice) (hw : 0 ≤ w.sample) :
    (readVoice bank w).2 =
      if w.pos = 0 then w
      else if w.pos + 1 ≥ (bank w.sample.toNat).length then { w with pos := 0 }
      else { w with pos := w.pos + 1 } := by
  by_cases hp : w.pos = 0
  · simp [readVoice, hw, hp]
  · simp only [readVoice, if_pos hw]
    rw [if_pos hp, if_neg hp]
    split_ifs <;> rfl

/-- The read/advance step changes nothing but the cursor. -/
theorem readVoice_other_fields (bank : Nat → List Int) (u : Voice) :
    (readVoice bank u).2.sample = u.sample ∧ (readVoice bank u).2.emph = u.emph := by
  simp only [readVoice]
  split_ifs <;> exact ⟨rfl, rfl⟩

/-- C4: a pattern cell holding the intensity digit `'5'` sets the voice's
cursor to 1 and its emphasis to `4 * EMPHASIS_UNIT` (= 48, with
`EMPHASIS_UNIT = 12`) in the trigger phase of the step's first frame; on
each later frame (with no further trigger for the voice) the cursor has
advanced by exactly one — after the first frame's own read it stands at 2,
after `k` further frames at `k + 2` — until it reaches the assigned
sample's length `L`, at which point it resets to 0 and stays 0. -/
theorem trigger_five_cursor_trajectory (bank : Nat → List Int)
    (cells : Nat → Option Char) (v : Voice) (L : Nat)
    (hc0 : cells 0 = some '5')
    (hrest : ∀ k, 1 ≤ k → cells k = none ∨ cells k = some ' ')
    (hs0 : 0 ≤ v.sample) (hL : (bank v.sample.toNat).length = L) :
    (triggerVoice '5' v).pos = 1 ∧
    (triggerVoice '5' v).emph = 4 * EMPHASIS_UNIT ∧
    (voiceRun bank cells v 1).emph = 4 * EMPHASIS_UNIT ∧
    (∀ k : Nat, (voiceRun bank cells v (k + 1)).pos =
      if k + 2 < L then k + 2 else 0) := by
  have hval : (('5'.toNat : Int) - ('1'.toNat : Int)) * EMPHASIS_UNIT =
      4 * EMPHASIS_UNIT := by decide
  have htrig : triggerVoice '5' v = { v with pos := 1, emph := 4 * EMPHASIS_UNIT } := by
    unfold triggerVoice
    rw [if_pos (show ('5' : Char) ≠ ' ' by decide), hval]
  have key : ∀ k : Nat,
      (voiceRun bank cells v (k + 1)).pos = (if k + 2 < L then k + 2 else 0) ∧
      (voiceRun bank cells v (k + 1)).sample = v.sample ∧
      (voiceRun bank cells v (k + 1)).emph = 4 * EMPHASIS_UNIT := by
    intro k
    induction k with
    | zero =>
      have e1 : voiceRun bank cells v 1 = (readVoice bank (triggerVoice '5' v)).2 := by
        show voiceUpd bank (cells 0) v = _
        rw [hc0]
        rfl
      have hof := readVoice_other_fields bank (triggerVoice '5' v)
      rw [e1, readVoice_snd bank (triggerVoice '5' v) (by rw [htrig]; exact hs0)]
      rw [htrig]
      have hpos1 : ({ v with pos := 1, emph := 4 * EMPHASIS_UNIT } : Voice).pos = 1 := rfl
      rw [if_neg (by rw [hpos1]; omega)]
      have hlen : (bank ({ v with pos := 1, emph := 4 * EMPHASIS_UNIT } : Voice).sample.toNat).length = L := hL
      rw [hpos1, hlen]
      by_cases h2 : 2 ≤ L
      · by_cases h3 : 1 + 1 ≥ L
        · rw [if_pos h3, if_neg (by omega)]
          exact ⟨rfl, rfl, rfl⟩
        · rw [if_neg h3, if_pos (by omega)]
          exact ⟨rfl, rfl, rfl⟩
      · rw [if_pos (by omega), if_neg (by omega)]
        exact ⟨rfl, rfl, rfl⟩
    | succ k ih =>
      obtain ⟨ihpos, ihsample, ihemph⟩ := ih
      have e1 : voiceRun bank cells v (k + 1 + 1) =
          voiceUpd bank (cells (k + 1)) (voiceRun bank cells v (k + 1)) := rfl
      have hnotrig : voiceUpd bank (cells (k + 1)) (voiceRun bank cells v (k + 1)) =
          (readVoice bank (voiceRun bank cells v (k + 1))).2 := by
        rcases hrest (k + 1) (by omega) with h | h
        · show (readVoice bank (match cells (k + 1) with
            | some ch => triggerVoice ch (voiceRun bank cells v (k + 1))
            | none => voiceRun bank cells v (k + 1))).2 = _
          rw [h]
        · show (readVoice bank (match cells (k + 1) with
            | some ch => triggerVoice ch (voiceRun bank cells v (k + 1))
            | none => voiceRun bank cells v (k + 1))).2 = _
          rw [h]
          show (readVoice bank (triggerVoice ' ' _)).2 = _
          rw [triggerVoice_space]
      have hof := readVoice_other_fields bank (voiceRun bank cells v (k + 1))
      rw [e1, hnotrig,
        readVoice_snd bank (voiceRun bank cells v (k + 1)) (by rw [ihsample]; exact hs0)]
      rw [ihsample, hL]
      by_cases hlive : k + 2 < L
      · rw [if_pos hlive] at ihpos
        rw [ihpos, if_neg (by omega)]
        by_cases hend : k + 2 + 1 ≥ L
        · rw [if_pos hend, if_neg (by omega)]
          exact ⟨rfl, rfl, ihemph⟩
        · rw [if_neg hend, if_pos (by omega)]
          exact ⟨rfl, rfl, ihemph⟩
      · rw [if_neg hlive] at ihpos
        rw [ihpos, if_pos rfl, if_neg (by omega)]
        exact ⟨ihpos, ihsample, ihemph⟩
  refine ⟨by rw [htrig], by rw [htrig], (key 0).2.2, fun k => (key k).1⟩

theorem trigger_five_cursor_trajectory_witness :
    (voiceRun (fun _ => [5, 6, 7]) (fun k => some (if k = 0 then '5' else ' '))
        (⟨18, 80, 3, 0, 0⟩ : Voice) (1 + 1)).pos = if 1 + 2 < 3 then 1 + 2 else 0 :=
  (trigger_five_cursor_trajectory (fun _ => [5, 6, 7])
    (fun k => some (if k = 0 then '5' else ' ')) ⟨18, 80, 3, 0, 0⟩ 3
    rfl (fun k hk => Or.inr (by
      show some (if k = 0 then '5' else ' ') = some ' '
      rw [if_neg (by omega)])) (by decide) rfl).2.2.2 1

/-- Composing synthesis runs. -/
theorem genIter_genIter (tone : Nat → Int) (bank : Nat → List Int) (m n : Nat)
    (st : SynthState) :
    genIter tone bank m (genIter tone bank n st) = genIter tone bank (m + n) st := by
  unfold genIter
  exact (Function.iterate_add_apply (genStep tone bank) m n st).symm

/-- Shifting the start state of the output stream by `m` frames. -/
theorem outAt_genIter (tone : Nat → Int) (bank : Nat → List Int) (m : Nat)
    (st : SynthState) (k : Nat) :
    outAt tone bank (genIter tone bank m st) k = outAt tone bank st (k + m) := by
  unfold outAt
  rw [genIter_genIter]

/-- One accepted `drum_fill_buffer` call: the synthesis state advances by
`BUFFER_SIZE` frames, the fill cursor advances modulo `N_BUFFERS`, the play
cursor is untouched, and block `buffer_to_fill` receives the `BUFFER_SIZE`
outputs in order while every other cell is untouched. -/
theorem drum_fill_step (tone : Nat → Int) (bank : Nat → List Int) (st : EngState)
    (hne : st.playing ≠ st.toFill) :
    (drum_fill_buffer tone bank st).synth = genIter tone bank BUFFER_SIZE st.synth ∧
    (drum_fill_buffer tone bank st).toFill = (st.toFill + 1) % (N_BUFFERS : Int) ∧
    (drum_fill_buffer tone bank st).playing = st.playing ∧
    (∀ b j : Nat, (drum_fill_buffer tone bank st).buffers b j =
      if b = st.toFill.toNat ∧ j < BUFFER_SIZE then outAt tone bank st.synth j
      else st.buffers b j) := by
  unfold drum_fill_buffer
  rw [if_neg hne]
  refine ⟨?_, ?_, ?_, ?_⟩
  · exact fillFrom_synth tone bank BUFFER_SIZE 0 st
  · show ((fillFrom tone bank 0 BUFFER_SIZE st).toFill + 1) % (N_BUFFERS : Int) = _
    rw [(fillFrom_cursors tone bank BUFFER_SIZE 0 st).1]
  · exact (fillFrom_cursors tone bank BUFFER_SIZE 0 st).2
  · intro b j
    show (fillFrom tone bank 0 BUFFER_SIZE st).buffers b j = _
    rw [fillFrom_buffers]
    by_cases hc : b = st.toFill.toNat ∧ j < BUFFER_SIZE
    · rw [if_pos ⟨hc.1, by omega, by omega⟩, if_pos hc, Nat.sub_zero]
    · rw [if_neg (by rintro ⟨h1, h2, h3⟩; exact hc ⟨h1, by omega⟩), if_neg hc]

/-- Invariant of the priming loop after `m` of its `N_BUFFERS` fills: the
first `m` blocks hold the first `m * BUFFER_SIZE` synthesized words in
order, the rest of the ring still holds its zero-initialised contents, the
fill cursor is at `m mod N_BUFFERS`, and the play cursor is still `-1`. -/
theorem prime_loop (tone : Nat → Int) (bank : Nat → List Int) :
    ∀ m : Nat, m ≤ N_BUFFERS →
    ((drum_fill_buffer tone bank)^[m] { initEng with playing := -1 }).synth =
        genIter tone bank (BUFFER_SIZE * m) initSynth ∧
    ((drum_fill_buffer tone bank)^[m] { initEng with playing := -1 }).toFill =
        ((m : Int) % (N_BUFFERS : Int)) ∧
    ((drum_fill_buffer tone bank)^[m] { initEng with playing := -1 }).playing = -1 ∧
    (∀ b j : Nat,
      ((drum_fill_buffer tone bank)^[m] { initEng with playing := -1 }).buffers b j =
        if b < m ∧ j < BUFFER_SIZE then outAt tone bank initSynth (b * BUFFER_SIZE + j)
        else 0) := by
  intro m
  induction m with
  | zero =>
    intro _
    refine ⟨rfl, rfl, rfl, ?_⟩
    intro b j
    rw [if_neg (by omega)]
    rfl
  | succ m ih =>
    intro hm
    obtain ⟨ihs, ihf, ihp, ihb⟩ := ih (by omega)
    rw [Function.iterate_succ_apply']
    have hm4 : m < N_BUFFERS := by omega
    have hne : ((drum_fill_buffer tone bank)^[m] { initEng with playing := -1 }).playing ≠
        ((drum_fill_buffer tone bank)^[m] { initEng with playing := -1 }).toFill := by
      rw [ihp, ihf]
      unfold N_BUFFERS at *
      omega
    obtain ⟨B1s, B1f, B1p, B1b⟩ :=
      drum_fill_step tone bank ((drum_fill_buffer tone bank)^[m] { initEng with playing := -1 }) hne
    have htf : ((drum_fill_buffer tone bank)^[m] { initEng with playing := -1 }).toFill.toNat = m := by
      rw [ihf]
      unfold N_BUFFERS at *
      omega
    refine ⟨?_, ?_, ?_, ?_⟩
    · rw [B1s, ihs, genIter_genIter]
      congr 1
      ring
    · rw [B1f, ihf]
      push_cast
      unfold N_BUFFERS at *
      omega
    · rw [B1p, ihp]
    · intro b j
      rw [B1b b j, htf]
      by_cases hc : b = m ∧ j < BUFFER_SIZE
      · obtain ⟨hb, hj⟩ := hc
        subst hb
        rw [if_pos ⟨rfl, hj⟩, if_pos ⟨by omega, hj⟩, ihs, outAt_genIter]
        congr 1
        ring
      · rw [if_neg hc, ihb b j]
        by_cases hc2 : b < m ∧ j < BUFFER_SIZE
        · rw [if_pos hc2, if_pos ⟨by omega, hc2.2⟩]
        · rw [if_neg hc2, if_neg ?_]
          rintro ⟨h1, h2⟩
          have hbm : b ≠ m := fun he => hc ⟨he, h2⟩
          exact hc2 ⟨by omega, h2⟩

/-- C7: after the priming phase of `main` (N_BUFFERS calls to
`drum_fill_buffer` with the guard disabled by `buffer_playing = -1`), every
one of the `N_BUFFERS` blocks holds synthesized frames — block `b`, slot `i`
holds the output of `generate_sample` call number `b * BUFFER_SIZE + i` —
the fill cursor has wrapped to 0, the play cursor is set to `N_BUFFERS - 1`,
so the play cursor stands `N_BUFFERS - 1` blocks (mod `N_BUFFERS`) from the
fill cursor at playback start. -/
theorem prime_fills_all_blocks (tone : Nat → Int) (bank : Nat → List Int) :
    (∀ b i : Nat, b < N_BUFFERS → i < BUFFER_SIZE →
      (prime tone bank).buffers b i =
        outAt tone bank initSynth (b * BUFFER_SIZE + i)) ∧
    (prime tone bank).toFill = 0 ∧
    (prime tone bank).playing = (N_BUFFERS : Int) - 1 ∧
    ((prime tone bank).playing - (prime tone bank).toFill) % (N_BUFFERS : Int) =
      (N_BUFFERS : Int) - 1 := by
  obtain ⟨_, Hf, _, Hb⟩ := prime_loop tone bank N_BUFFERS (le_refl _)
  have htf : (prime tone bank).toFill = 0 := by
    show ((drum_fill_buffer tone bank)^[N_BUFFERS] { initEng with playing := -1 }).toFill = 0
    rw [Hf]
    decide
  refine ⟨?_, htf, rfl, ?_⟩
  · intro b i hb hi
    show ((drum_fill_buffer tone bank)^[N_BUFFERS] { initEng with playing := -1 }).buffers b i = _
    rw [Hb b i, if_pos ⟨hb, hi⟩]
  · rw [htf]
    show ((N_BUFFERS : Int) - 1 - 0) % (N_BUFFERS : Int) = (N_BUFFERS : Int) - 1
    decide

theorem prime_fills_all_blocks_witness :
    (prime (fun _ => 1) (fun _ => [])).buffers 0 0 =
      outAt (fun _ => 1) (fun _ => []) initSynth (0 * BUFFER_SIZE + 0) :=
  (prime_fills_all_blocks (fun _ => 1) (fun _ => [])).1 0 0 (by decide) (by decide)
